import Mathlib

set_option maxHeartbeats 1000000

/-! Verification of the streaming SSE decoder and retry/backoff controller of
    the OpenAI client cores (src/openai/openai-core.js and
    src/openai/openai-responses-core.js).  Text is modelled as lists of
    Unicode code points, raw bytes as natural numbers below 256.  JavaScript
    string operations (trim, startsWith, substring, indexOf) are embedded as
    functions on code-point lists. -/

/-- Whitespace predicate of JavaScript String.prototype.trim
    (ECMA-262 TrimString: WhiteSpace and LineTerminator code points). -/
def jsWhitespace (c : Nat) : Bool :=
  c == 9 || c == 10 || c == 11 || c == 12 || c == 13 || c == 32 || c == 160 ||
  c == 5760 || (decide (8192 ≤ c) && decide (c ≤ 8202)) || c == 8232 ||
  c == 8233 || c == 8239 || c == 8287 || c == 12288 || c == 65279

/-- JavaScript trimStart on code points. -/
def jsTrimLeft (u : List Nat) : List Nat := u.dropWhile jsWhitespace

/-- JavaScript trimEnd on code points. -/
def jsTrimRight (u : List Nat) : List Nat := (u.reverse.dropWhile jsWhitespace).reverse

/-- JavaScript String.prototype.trim on code points. -/
def jsTrim (u : List Nat) : List Nat := jsTrimRight (jsTrimLeft u)

/-- Parsed JSON values, as produced by JSON.parse.  Object keys and string
    contents are code-point lists; numbers are restricted to integers, which
    covers every numeric literal exercised in this development. -/
inductive Json where
  | null : Json
  | jbool : Bool → Json
  | num : Int → Json
  | str : List Nat → Json
  | arr : List Json → Json
  | obj : List (List Nat × Json) → Json

/-- JSON insignificant whitespace (space, tab, newline, carriage return). -/
def jsonWsChar (c : Nat) : Bool := c == 32 || c == 9 || c == 10 || c == 13

/-- Drop leading JSON whitespace. -/
def skipWs (s : List Nat) : List Nat := s.dropWhile jsonWsChar

/-- Decimal digit code point. -/
def isDigitCp (c : Nat) : Bool := decide (48 ≤ c) && decide (c ≤ 57)

/-- Accumulate a digit list into a natural number. -/
def digitsToNat : List Nat → Nat → Nat
  | [], acc => acc
  | d :: ds, acc => digitsToNat ds (acc * 10 + (d - 48))

/-- Parse an optionally signed integer literal. -/
def parseIntLit (s : List Nat) : Option (Int × List Nat) :=
  match s with
  | 45 :: rest =>
    let ds := rest.takeWhile isDigitCp
    if ds.isEmpty then none
    else some (-(digitsToNat ds 0 : Int), rest.dropWhile isDigitCp)
  | _ =>
    let ds := s.takeWhile isDigitCp
    if ds.isEmpty then none
    else some ((digitsToNat ds 0 : Int), s.dropWhile isDigitCp)

/-- Hexadecimal digit value of a code point. -/
def hexVal (c : Nat) : Option Nat :=
  if decide (48 ≤ c) && decide (c ≤ 57) then some (c - 48)
  else if decide (97 ≤ c) && decide (c ≤ 102) then some (c - 87)
  else if decide (65 ≤ c) && decide (c ≤ 70) then some (c - 55)
  else none

/-- Single-character JSON string escapes. -/
def escMap (c : Nat) : Option Nat :=
  if c == 34 then some 34 else if c == 92 then some 92 else if c == 47 then some 47
  else if c == 98 then some 8 else if c == 102 then some 12 else if c == 110 then some 10
  else if c == 114 then some 13 else if c == 116 then some 9 else none

/-- Parse the body of a JSON string after the opening quote; returns the
    decoded code points and the remaining input after the closing quote. -/
def parseStringBody : List Nat → Option (List Nat × List Nat)
  | [] => none
  | c :: rest =>
    if c == 34 then some ([], rest)
    else if c == 92 then
      match rest with
      | [] => none
      | 117 :: a :: b :: c2 :: d :: r3 =>
        match hexVal a, hexVal b, hexVal c2, hexVal d with
        | some ha, some hb, some hc, some hd =>
          match parseStringBody r3 with
          | some (cs, r) => some ((((ha * 16 + hb) * 16 + hc) * 16 + hd) :: cs, r)
          | none => none
        | _, _, _, _ => none
      | e :: rest2 =>
        match escMap e with
        | some ch =>
          match parseStringBody rest2 with
          | some (cs, r) => some (ch :: cs, r)
          | none => none
        | none => none
    else if decide (c < 32) then none
    else
      match parseStringBody rest with
      | some (cs, r) => some (c :: cs, r)
      | none => none

mutual

/-- Modelled from the spec: JSON.parse (a JavaScript builtin, not part of
    src/) as a fuel-indexed recursive-descent value parser. -/
def parseJsonVal : Nat → List Nat → Option (Json × List Nat)
  | 0, _ => none
  | fuel + 1, s =>
    match skipWs s with
    | [] => none
    | c :: rest =>
      if c == 110 then
        match rest with
        | 117 :: 108 :: 108 :: r => some (Json.null, r)
        | _ => none
      else if c == 116 then
        match rest with
        | 114 :: 117 :: 101 :: r => some (Json.jbool true, r)
        | _ => none
      else if c == 102 then
        match rest with
        | 97 :: 108 :: 115 :: 101 :: r => some (Json.jbool false, r)
        | _ => none
      else if c == 34 then
        match parseStringBody rest with
        | some (cs, r) => some (Json.str cs, r)
        | none => none
      else if c == 91 then
        match skipWs rest with
        | 93 :: r => some (Json.arr [], r)
        | _ =>
          match parseElems fuel rest with
          | some (xs, r) => some (Json.arr xs, r)
          | none => none
      else if c == 123 then
        match skipWs rest with
        | 125 :: r => some (Json.obj [], r)
        | _ =>
          match parseMembers fuel rest with
          | some (kvs, r) => some (Json.obj kvs, r)
          | none => none
      else
        match parseIntLit (c :: rest) with
        | some (n, r) => some (Json.num n, r)
        | none => none

/-- Comma-separated JSON array elements up to the closing bracket. -/
def parseElems : Nat → List Nat → Option (List Json × List Nat)
  | 0, _ => none
  | fuel + 1, s =>
    match parseJsonVal fuel s with
    | none => none
    | some (v, r) =>
      match skipWs r with
      | 44 :: r2 =>
        match parseElems fuel r2 with
        | some (vs, r3) => some (v :: vs, r3)
        | none => none
      | 93 :: r2 => some ([v], r2)
      | _ => none

/-- Comma-separated JSON object members up to the closing brace. -/
def parseMembers : Nat → List Nat → Option (List (List Nat × Json) × List Nat)
  | 0, _ => none
  | fuel + 1, s =>
    match skipWs s with
    | 34 :: rest =>
      match parseStringBody rest with
      | none => none
      | some (k, r) =>
        match skipWs r with
        | 58 :: r2 =>
          match parseJsonVal fuel r2 with
          | none => none
          | some (v, r3) =>
            match skipWs r3 with
            | 44 :: r4 =>
              match parseMembers fuel r4 with
              | some (kvs, r5) => some ((k, v) :: kvs, r5)
              | none => none
            | 125 :: r4 => some ([(k, v)], r4)
            | _ => none
        | _ => none
    | _ => none

end

/-- JSON.parse of a complete text: parse one value and require only
    whitespace to remain. -/
def jsonParse (s : List Nat) : Option Json :=
  match parseJsonVal (2 * s.length + 2) s with
  | some (v, r) => if skipWs r = [] then some v else none
  | none => none

example : jsonParse [110, 117, 108, 108] = some Json.null := rfl
example : jsonParse [52, 50] = some (Json.num 42) := rfl
example : jsonParse [123, 34, 120, 34, 58, 50, 125] =
    some (Json.obj [([120], Json.num 2)]) := rfl
example : jsonParse [123, 98, 97, 100] = none := rfl
example : jsonParse [91, 68, 79, 78, 69, 93] = none := rfl

/-- Leading-byte class of a UTF-8 byte: the total length of the character it
    starts, 0 for continuation or invalid leading bytes. -/
def utf8Width (b : Nat) : Nat :=
  if b < 128 then 1
  else if b < 192 then 0
  else if b < 224 then 2
  else if b < 240 then 3
  else if b < 248 then 4
  else 0

/-- Continuation byte test (0x80 through 0xBF). -/
def utf8ContByte (b : Nat) : Bool := decide (128 ≤ b) && decide (b < 192)

/-- Assemble the code point of a complete UTF-8 byte sequence. -/
def utf8Assemble (bs : List Nat) : Nat :=
  match bs with
  | [b] => b
  | [b, c] => (b - 192) * 64 + (c - 128)
  | [b, c, d] => (b - 224) * 4096 + (c - 128) * 64 + (d - 128)
  | [b, c, d, e] => (b - 240) * 262144 + (c - 128) * 4096 + (d - 128) * 64 + (e - 128)
  | _ => 65533

/-- Modelled from the spec: one byte step of Node's incremental StringDecoder
    (module string_decoder, not part of src/): a stateful byte-to-text
    converter whose state is the buffered incomplete multi-byte prefix;
    complete characters are emitted, invalid bytes become U+FFFD. -/
def utf8Step (pend : List Nat) (b : Nat) : List Nat × List Nat :=
  match pend with
  | [] =>
    if utf8Width b == 1 then ([], [b])
    else if utf8Width b == 0 then ([], [65533])
    else ([b], [])
  | p :: ps =>
    if utf8ContByte b then
      if (p :: ps).length + 1 == utf8Width p then ([], [utf8Assemble (p :: ps ++ [b])])
      else (p :: ps ++ [b], [])
    else
      if utf8Width b == 1 then ([], [65533, b])
      else if utf8Width b == 0 then ([], [65533, 65533])
      else ([b], [65533])

/-- Modelled from the spec: decoder.write(chunk) — feed a chunk of bytes
    through the incremental decoder, returning the new pending state and the
    emitted code points. -/
def utf8Write : List Nat → List Nat → List Nat × List Nat
  | pend, [] => (pend, [])
  | pend, b :: bs =>
    let s := utf8Step pend b
    let r := utf8Write s.1 bs
    (r.1, s.2 ++ r.2)

/-- Modelled from the spec: decoder.end() — flush the residual incomplete
    sequence as a replacement character. -/
def utf8End (pend : List Nat) : List Nat :=
  match pend with
  | [] => []
  | _ => [65533]

/-- Code points of the literal prefix checked by line.startsWith, spelled
    d a t a colon space. -/
def dataPfx : List Nat := [100, 97, 116, 97, 58, 32]

/-- Code points of d a t a colon (no trailing space). -/
def dataColon : List Nat := [100, 97, 116, 97, 58]

/-- Code points of the DONE sentinel payload, bracket D O N E bracket. -/
def doneLit : List Nat := [91, 68, 79, 78, 69, 93]

/-- Code points of the wire-body field name s t r e a m. -/
def streamKey : List Nat := [115, 116, 114, 101, 97, 109]

/-- Split a text into the complete newline-terminated lines (newline removed)
    and the trailing partial segment, exactly as the source's repeated
    buffer.indexOf newline / substring loop does. -/
def splitNl : List Nat → List (List Nat) × List Nat
  | [] => ([], [])
  | c :: cs =>
    let r := splitNl cs
    if c == 10 then ([] :: r.1, r.2)
    else
      match r with
      | (l :: ls, part0) => ((c :: l) :: ls, part0)
      | ([], part0) => ([], c :: part0)

/-- Line handling of streamApi (openai-core.js lines 111 through 127): trim
    the line; on a data-space prefix take the trimmed remainder after six
    characters; the DONE sentinel terminates with no event; otherwise a
    successful parse yields an event and a failed parse is dropped.  Returns
    the emitted event, if any, and whether the session terminates. -/
def processLine (p : List Nat → Option Json) (line : List Nat) : Option Json × Bool :=
  let t := jsTrim line
  if dataPfx.isPrefixOf t then
    let payload := jsTrim (t.drop 6)
    if payload = doneLit then (none, true)
    else (p payload, false)
  else (none, false)

/-- The inner while loop of streamApi over the complete lines currently in
    the buffer: events in order, stopping at the first DONE line. -/
def drainLines (p : List Nat → Option Json) : List (List Nat) → List Json × Bool
  | [] => ([], false)
  | l :: ls =>
    let r := processLine p l
    if r.2 then ([], true)
    else
      match r.1 with
      | some v =>
        let d := drainLines p ls
        (v :: d.1, d.2)
      | none => drainLines p ls

/-- End-of-stream flush of openai-core.js streamApi (lines 136 through 152):
    if the leftover buffer is nonempty, apply the line logic once; a DONE
    payload emits nothing, otherwise a successful parse emits one final
    event. -/
def finalFlushOAI (p : List Nat → Option Json) (buf : List Nat) : List Json :=
  if buf = [] then []
  else
    let line := jsTrim buf
    if dataPfx.isPrefixOf line then
      let jsonData := jsTrim (line.drop 6)
      if jsonData = doneLit then []
      else
        match p jsonData with
        | some v => [v]
        | none => []
    else []

/-- End-of-stream flush of openai-responses-core.js streamApi (lines 132
    through 145), phrased there with a negated DONE test. -/
def finalFlushResp (p : List Nat → Option Json) (buf : List Nat) : List Json :=
  if buf = [] then []
  else
    let line := jsTrim buf
    if dataPfx.isPrefixOf line then
      let jsonData := jsTrim (line.drop 6)
      if jsonData ≠ doneLit then
        match p jsonData with
        | some v => [v]
        | none => []
      else []
    else []

/-- Decoding session of openai-core.js streamApi (lines 100 through 152):
    fold the chunks through the incremental decoder, draining complete lines
    from the buffer after every chunk, with early return on DONE and the
    end-of-stream flush when the chunks are exhausted.  Returns the emitted
    events and whether DONE terminated the session mid-stream. -/
def streamDecodeOAI (p : List Nat → Option Json) : List Nat → List Nat → List (List Nat) → List Json × Bool
  | pend, buffer, [] => (finalFlushOAI p (buffer ++ utf8End pend), false)
  | pend, buffer, ch :: rest =>
    let w := utf8Write pend ch
    let s := splitNl (buffer ++ w.2)
    let d := drainLines p s.1
    if d.2 then (d.1, true)
    else
      let r := streamDecodeOAI p w.1 s.2 rest
      (d.1 ++ r.1, r.2)

/-- Decoding session of openai-responses-core.js streamApi (lines 100
    through 145); identical to the other variant except for the shape of the
    final flush. -/
def streamDecodeResp (p : List Nat → Option Json) : List Nat → List Nat → List (List Nat) → List Json × Bool
  | pend, buffer, [] => (finalFlushResp p (buffer ++ utf8End pend), false)
  | pend, buffer, ch :: rest =>
    let w := utf8Write pend ch
    let s := splitNl (buffer ++ w.2)
    let d := drainLines p s.1
    if d.2 then (d.1, true)
    else
      let r := streamDecodeResp p w.1 s.2 rest
      (d.1 ++ r.1, r.2)

/-- Reference run of the line logic on a fully decoded text: drain all
    complete lines, then flush the trailing partial segment. -/
def lineRun (p : List Nat → Option Json) (u : List Nat) : List Json × Bool :=
  let s := splitNl u
  let d := drainLines p s.1
  if d.2 then (d.1, true) else (d.1 ++ finalFlushOAI p s.2, false)

example :
    streamDecodeOAI jsonParse [] []
      [[100, 97, 116, 97, 58, 32, 123, 34, 97, 34, 58],
       [49, 125, 10, 10, 100, 97, 116, 97, 58, 32, 91, 68, 79, 78, 69, 93, 10]] =
      ([Json.obj [([97], Json.num 1)]], true) := rfl

example :
    streamDecodeOAI jsonParse [] [] [[100, 97, 116, 97, 58, 32, 123, 34, 120, 34, 58, 50, 125]] =
      ([Json.obj [([120], Json.num 2)]], false) := rfl

example :
    streamDecodeOAI jsonParse [] []
      [[100, 97, 116, 97, 58, 32, 34, 228, 189], [160, 34, 10]] =
      ([Json.str [20320]], false) := rfl

/-- Configuration fields consulted by callApi and streamApi.  A value of none
    models an unset (undefined) JavaScript property; the API key, base URL
    and proxy flag are consumed only by the constructor and transport and
    carry no retry or decoding logic. -/
structure Config where
  REQUEST_MAX_RETRIES : Option Nat
  REQUEST_BASE_DELAY : Option Nat

/-- The status code attached to a failed HTTP attempt; none models a
    response-less failure (error.response?.status is undefined). -/
structure HttpError where
  status : Option Nat

/-- A request payload: a JavaScript object as an ordered field list. -/
def Payload := List (List Nat × Json)

/-- Outcome of one buffered attempt: the response body, or a thrown error. -/
inductive CallResult where
  | ok (data : Json)
  | err (e : HttpError)

/-- Outcome of one stream-establishment attempt: the chunked byte stream, or
    a thrown error. -/
inductive StreamFetch where
  | ok (chunks : List (List Nat))
  | err (e : HttpError)

/-- Terminal outcome of a streaming call: the decoded event sequence, or a
    propagated error. -/
inductive StreamResult where
  | ok (events : List Json)
  | err (e : HttpError)

/-- Observable trace of one logical buffered call including its retries. -/
structure CallTrace where
  attempts : Nat
  delays : List Nat
  sent : List Payload
  result : CallResult

/-- Observable trace of one logical streaming call including its retries. -/
structure StreamTrace where
  attempts : Nat
  delays : List Nat
  sent : List Payload
  result : StreamResult

/-- JavaScript comparison retryCount < maxRetries where maxRetries may be
    undefined: comparing a number against undefined yields false. -/
def jsLtOpt (r : Nat) (mR : Option Nat) : Bool :=
  match mR with
  | some m => decide (r < m)
  | none => false

/-- JavaScript logical-or defaulting, value or default: undefined and 0 are
    both falsy and select the default. -/
def jsOr (v : Option Nat) (d : Nat) : Nat :=
  match v with
  | some n => if n = 0 then d else n
  | none => d

/-- The backoff product baseDelay * 2 ^ retryCount; an undefined baseDelay
    makes the product NaN, which setTimeout treats as a zero delay. -/
def jsBackoff (bD : Option Nat) (r : Nat) : Nat :=
  match bD with
  | some b => b * 2 ^ r
  | none => 0

/-- Retryable server-error test status greater equal 500 and less than 600;
    false when the status is undefined. -/
def is5xx (st : Option Nat) : Bool :=
  match st with
  | some s => decide (500 ≤ s) && decide (s < 600)
  | none => false

/-- Decreasing measure of the retry recursion: retries remaining before the
    budget is exhausted. -/
def retriesLeft (mR : Option Nat) (r : Nat) : Nat :=
  match mR with
  | some m => m - r
  | none => 0

/-- The object spread of streamApi line 92: copy the payload fields and force
    the named field to the given value, preserving JavaScript property order
    (an existing key is overwritten in place, a new key is appended). -/
def setKey : Payload → List Nat → Json → Payload
  | [], k, v => [(k, v)]
  | (k', v') :: rest, k, v =>
    if k' = k then (k', v) :: rest else (k', v') :: setKey rest k v

/-- callApi of openai-core.js (lines 51 through 85): maxRetries and baseDelay
    are read from the configuration with no defaulting; 401 and 403
    propagate at once; 429 and 5xx retry with delay baseDelay * 2 ^
    retryCount while retryCount < maxRetries; everything else propagates.
    The transport is indexed by the attempt's retryCount and receives the
    body sent on that attempt. -/
def OpenAIApiService.callApi (cfg : Config) (tr : Nat → Payload → CallResult)
    (body : Payload) (retryCount : Nat) : CallTrace :=
  match tr retryCount body with
  | CallResult.ok data => ⟨1, [], [body], CallResult.ok data⟩
  | CallResult.err e =>
    if e.status = some 401 ∨ e.status = some 403 then
      ⟨1, [], [body], CallResult.err e⟩
    else if h : e.status = some 429 ∧ jsLtOpt retryCount cfg.REQUEST_MAX_RETRIES = true then
      let rest := OpenAIApiService.callApi cfg tr body (retryCount + 1)
      ⟨rest.attempts + 1, jsBackoff cfg.REQUEST_BASE_DELAY retryCount :: rest.delays,
        body :: rest.sent, rest.result⟩
    else if h : is5xx e.status = true ∧ jsLtOpt retryCount cfg.REQUEST_MAX_RETRIES = true then
      let rest := OpenAIApiService.callApi cfg tr body (retryCount + 1)
      ⟨rest.attempts + 1, jsBackoff cfg.REQUEST_BASE_DELAY retryCount :: rest.delays,
        body :: rest.sent, rest.result⟩
    else ⟨1, [], [body], CallResult.err e⟩
termination_by retriesLeft cfg.REQUEST_MAX_RETRIES retryCount
decreasing_by
  all_goals
    rcases h with ⟨-, h2⟩
    rcases hm : cfg.REQUEST_MAX_RETRIES with - | m
    · rw [hm] at h2; simp [jsLtOpt] at h2
    · rw [hm] at h2; simp [jsLtOpt] at h2; simp [retriesLeft, hm]; omega

/-- callApi of openai-responses-core.js (lines 51 through 85): identical
    classification, but maxRetries defaults to 3 and baseDelay to 1000
    through the JavaScript logical-or. -/
def OpenAIResponsesApiService.callApi (cfg : Config) (tr : Nat → Payload → CallResult)
    (body : Payload) (retryCount : Nat) : CallTrace :=
  match tr retryCount body with
  | CallResult.ok data => ⟨1, [], [body], CallResult.ok data⟩
  | CallResult.err e =>
    if e.status = some 401 ∨ e.status = some 403 then
      ⟨1, [], [body], CallResult.err e⟩
    else if h : e.status = some 429 ∧ retryCount < jsOr cfg.REQUEST_MAX_RETRIES 3 then
      let rest := OpenAIResponsesApiService.callApi cfg tr body (retryCount + 1)
      ⟨rest.attempts + 1, jsOr cfg.REQUEST_BASE_DELAY 1000 * 2 ^ retryCount :: rest.delays,
        body :: rest.sent, rest.result⟩
    else if h : is5xx e.status = true ∧ retryCount < jsOr cfg.REQUEST_MAX_RETRIES 3 then
      let rest := OpenAIResponsesApiService.callApi cfg tr body (retryCount + 1)
      ⟨rest.attempts + 1, jsOr cfg.REQUEST_BASE_DELAY 1000 * 2 ^ retryCount :: rest.delays,
        body :: rest.sent, rest.result⟩
    else ⟨1, [], [body], CallResult.err e⟩
termination_by jsOr cfg.REQUEST_MAX_RETRIES 3 - retryCount
decreasing_by
  all_goals rcases h with ⟨-, h2⟩; omega

/-- streamApi of openai-core.js (lines 87 through 182): every attempt sends
    the payload extended with stream set to true; on success the byte stream
    is decoded by the session loop with JSON.parse; failures follow the same
    classification and no-default retry parameters as callApi, a retry
    re-invoking streamApi with the original body. -/
def OpenAIApiService.streamApi (cfg : Config) (tr : Nat → Payload → StreamFetch)
    (body : Payload) (retryCount : Nat) : StreamTrace :=
  let wire := setKey body streamKey (Json.jbool true)
  match tr retryCount wire with
  | StreamFetch.ok chunks =>
    ⟨1, [], [wire], StreamResult.ok (streamDecodeOAI jsonParse [] [] chunks).1⟩
  | StreamFetch.err e =>
    if e.status = some 401 ∨ e.status = some 403 then
      ⟨1, [], [wire], StreamResult.err e⟩
    else if h : e.status = some 429 ∧ jsLtOpt retryCount cfg.REQUEST_MAX_RETRIES = true then
      let rest := OpenAIApiService.streamApi cfg tr body (retryCount + 1)
      ⟨rest.attempts + 1, jsBackoff cfg.REQUEST_BASE_DELAY retryCount :: rest.delays,
        wire :: rest.sent, rest.result⟩
    else if h : is5xx e.status = true ∧ jsLtOpt retryCount cfg.REQUEST_MAX_RETRIES = true then
      let rest := OpenAIApiService.streamApi cfg tr body (retryCount + 1)
      ⟨rest.attempts + 1, jsBackoff cfg.REQUEST_BASE_DELAY retryCount :: rest.delays,
        wire :: rest.sent, rest.result⟩
    else ⟨1, [], [wire], StreamResult.err e⟩
termination_by retriesLeft cfg.REQUEST_MAX_RETRIES retryCount
decreasing_by
  all_goals
    rcases h with ⟨-, h2⟩
    rcases hm : cfg.REQUEST_MAX_RETRIES with - | m
    · rw [hm] at h2; simp [jsLtOpt] at h2
    · rw [hm] at h2; simp [jsLtOpt] at h2; simp [retriesLeft, hm]; omega

/-- streamApi of openai-responses-core.js (lines 87 through 176): as the
    other variant, with the defaulted retry parameters and its own final
    flush shape in the decoding session. -/
def OpenAIResponsesApiService.streamApi (cfg : Config) (tr : Nat → Payload → StreamFetch)
    (body : Payload) (retryCount : Nat) : StreamTrace :=
  let wire := setKey body streamKey (Json.jbool true)
  match tr retryCount wire with
  | StreamFetch.ok chunks =>
    ⟨1, [], [wire], StreamResult.ok (streamDecodeResp jsonParse [] [] chunks).1⟩
  | StreamFetch.err e =>
    if e.status = some 401 ∨ e.status = some 403 then
      ⟨1, [], [wire], StreamResult.err e⟩
    else if h : e.status = some 429 ∧ retryCount < jsOr cfg.REQUEST_MAX_RETRIES 3 then
      let rest := OpenAIResponsesApiService.streamApi cfg tr body (retryCount + 1)
      ⟨rest.attempts + 1, jsOr cfg.REQUEST_BASE_DELAY 1000 * 2 ^ retryCount :: rest.delays,
        wire :: rest.sent, rest.result⟩
    else if h : is5xx e.status = true ∧ retryCount < jsOr cfg.REQUEST_MAX_RETRIES 3 then
      let rest := OpenAIResponsesApiService.streamApi cfg tr body (retryCount + 1)
      ⟨rest.attempts + 1, jsOr cfg.REQUEST_BASE_DELAY 1000 * 2 ^ retryCount :: rest.delays,
        wire :: rest.sent, rest.result⟩
    else ⟨1, [], [wire], StreamResult.err e⟩
termination_by jsOr cfg.REQUEST_MAX_RETRIES 3 - retryCount
decreasing_by
  all_goals rcases h with ⟨-, h2⟩; omega

theorem utf8Write_append (a : List Nat) : ∀ (pend b : List Nat),
    utf8Write pend (a ++ b) =
      ((utf8Write (utf8Write pend a).1 b).1,
       (utf8Write pend a).2 ++ (utf8Write (utf8Write pend a).1 b).2) := by
  induction a with
  | nil => intro pend b; simp [utf8Write]
  | cons x xs ih =>
    intro pend b
    simp only [List.cons_append, utf8Write, List.append_eq]
    rw [ih]
    simp [List.append_assoc]

theorem splitNl_no_nl (u : List Nat) (h : ∀ c ∈ u, c ≠ 10) : splitNl u = ([], u) := by
  induction u with
  | nil => rfl
  | cons c cs ih =>
    have hc : c ≠ 10 := h c (List.mem_cons_self c cs)
    have := ih (fun x hx => h x (List.mem_cons_of_mem c hx))
    simp [splitNl, this, hc]

theorem splitNl_cons_ten (cs : List Nat) :
    splitNl (10 :: cs) = ([] :: (splitNl cs).1, (splitNl cs).2) := by
  simp [splitNl]

theorem splitNl_cons_ne (c : Nat) (hc : c ≠ 10) (cs : List Nat) :
    splitNl (c :: cs) =
      (match splitNl cs with
       | (l :: ls, q) => ((c :: l) :: ls, q)
       | ([], q) => ([], c :: q)) := by
  simp [splitNl, hc]

theorem splitNl_partial_no_nl (u : List Nat) : ∀ c ∈ (splitNl u).2, c ≠ 10 := by
  induction u with
  | nil => intro c hc; simp [splitNl] at hc
  | cons x xs ih =>
    intro c hc
    by_cases hx : x = 10
    · subst hx; rw [splitNl_cons_ten] at hc; exact ih c hc
    · rw [splitNl_cons_ne x hx] at hc
      rcases hsp : splitNl xs with ⟨ls, q⟩
      rw [hsp] at hc ih
      cases ls with
      | nil =>
        simp at hc
        rcases hc with hc | hc
        · subst hc; exact hx
        · exact ih c hc
      | cons l ls' =>
        simp at hc
        exact ih c hc

theorem splitNl_append (x : List Nat) : ∀ t : List Nat,
    splitNl (x ++ t) =
      ((splitNl x).1 ++ (splitNl ((splitNl x).2 ++ t)).1,
       (splitNl ((splitNl x).2 ++ t)).2) := by
  induction x with
  | nil => intro t; simp [splitNl]
  | cons c cs ih =>
    intro t
    by_cases hc : c = 10
    · subst hc
      rw [show ((10 : Nat) :: cs) ++ t = 10 :: (cs ++ t) from rfl,
        splitNl_cons_ten, splitNl_cons_ten, ih t]
      simp
    · rw [show (c :: cs) ++ t = c :: (cs ++ t) from rfl,
        splitNl_cons_ne c hc, splitNl_cons_ne c hc, ih t]
      rcases hsp : splitNl cs with ⟨ls, q⟩
      cases ls with
      | nil =>
        simp only [List.nil_append, List.cons_append]
        rw [splitNl_cons_ne c hc]
      | cons a as =>
        rcases h2 : splitNl (q ++ t) with ⟨ls2, q2⟩
        simp

theorem drainLines_append (p : List Nat → Option Json) (L1 L2 : List (List Nat)) :
    drainLines p (L1 ++ L2) =
      if (drainLines p L1).2 then drainLines p L1
      else ((drainLines p L1).1 ++ (drainLines p L2).1, (drainLines p L2).2) := by
  induction L1 with
  | nil => simp [drainLines]
  | cons l ls ih =>
    simp only [List.cons_append, drainLines, List.append_eq]
    rcases hr : processLine p l with ⟨ev, done⟩
    cases done with
    | true => simp
    | false =>
      simp only [Bool.false_eq_true, if_false]
      cases ev with
      | some v =>
        rw [ih]
        rcases hD : drainLines p ls with ⟨evs, d2⟩
        rcases hD2 : drainLines p L2 with ⟨evs2, e2⟩
        cases d2 <;> simp
      | none => rw [ih]

theorem utf8End_no_nl (pend : List Nat) : ∀ c ∈ utf8End pend, c ≠ 10 := by
  cases pend <;> simp [utf8End]

theorem streamDecodeOAI_eq_lineRun (p : List Nat → Option Json) :
    ∀ (chunks : List (List Nat)) (pend buffer : List Nat), (∀ c ∈ buffer, c ≠ 10) →
    streamDecodeOAI p pend buffer chunks =
      lineRun p (buffer ++ (utf8Write pend chunks.flatten).2 ++
        utf8End (utf8Write pend chunks.flatten).1) := by
  intro chunks
  induction chunks with
  | nil =>
    intro pend buffer hb
    have hnl : ∀ c ∈ buffer ++ utf8End pend, c ≠ 10 := by
      intro c hc
      rcases List.mem_append.1 hc with h | h
      · exact hb c h
      · exact utf8End_no_nl pend c h
    simp only [streamDecodeOAI, List.flatten_nil, utf8Write, lineRun]
    rw [List.append_nil, splitNl_no_nl _ hnl]
    simp [drainLines]
  | cons ch rest ih =>
    intro pend buffer hb
    rcases hw : utf8Write pend ch with ⟨p1, out1⟩
    rcases hs : splitNl (buffer ++ out1) with ⟨lines1, buf1⟩
    rcases hd : drainLines p lines1 with ⟨evs1, done1⟩
    rcases hw2 : utf8Write p1 rest.flatten with ⟨p2, out2⟩
    rcases hs2 : splitNl (buf1 ++ (out2 ++ utf8End p2)) with ⟨lines2, buf2⟩
    rcases hd2 : drainLines p lines2 with ⟨evs2, done2⟩
    have hbuf1 : ∀ c ∈ buf1, c ≠ 10 := by
      intro c hc
      have := splitNl_partial_no_nl (buffer ++ out1) c
      rw [hs] at this
      exact this hc
    have lhs : streamDecodeOAI p pend buffer (ch :: rest) =
        (if done1 then (evs1, true)
         else (evs1 ++ (streamDecodeOAI p p1 buf1 rest).1,
           (streamDecodeOAI p p1 buf1 rest).2)) := by
      simp only [streamDecodeOAI, hw, hs, hd]
    have hW : utf8Write pend (ch :: rest).flatten = (p2, out1 ++ out2) := by
      rw [List.flatten_cons, utf8Write_append, hw]
      dsimp only
      rw [hw2]
    have hRHS : lineRun p (buffer ++ (out1 ++ out2) ++ utf8End p2) =
        (if done1 then (evs1, true)
         else if done2 then (evs1 ++ evs2, true)
         else (evs1 ++ (evs2 ++ finalFlushOAI p buf2), false)) := by
      simp only [lineRun]
      rw [show buffer ++ (out1 ++ out2) ++ utf8End p2 =
          (buffer ++ out1) ++ (out2 ++ utf8End p2) by simp [List.append_assoc]]
      rw [splitNl_append, hs]
      dsimp only
      rw [hs2]
      dsimp only
      rw [drainLines_append, hd, hd2]
      cases done1 <;> cases done2 <;> simp
    have hIH2 : lineRun p (buf1 ++ (out2 ++ utf8End p2)) =
        (if done2 then (evs2, true) else (evs2 ++ finalFlushOAI p buf2, false)) := by
      simp only [lineRun]
      rw [hs2]
      dsimp only
      rw [hd2]
    have ihx : streamDecodeOAI p p1 buf1 rest =
        (if done2 then (evs2, true) else (evs2 ++ finalFlushOAI p buf2, false)) := by
      rw [ih p1 buf1 hbuf1, hw2]
      dsimp only
      rw [show buf1 ++ out2 ++ utf8End p2 = buf1 ++ (out2 ++ utf8End p2) by
        simp [List.append_assoc]]
      exact hIH2
    rw [lhs, hW]
    dsimp only
    rw [hRHS, ihx]
    cases done1 <;> cases done2 <;> simp

theorem finalFlushResp_eq_OAI (p : List Nat → Option Json) (buf : List Nat) :
    finalFlushResp p buf = finalFlushOAI p buf := by
  by_cases h0 : buf = []
  · simp [finalFlushOAI, finalFlushResp, h0]
  · by_cases h : jsTrim ((jsTrim buf).drop 6) = doneLit <;>
      simp [finalFlushOAI, finalFlushResp, h0, h]

theorem streamDecodeResp_eq_OAI (p : List Nat → Option Json) :
    ∀ (chunks : List (List Nat)) (pend buffer : List Nat),
    streamDecodeResp p pend buffer chunks = streamDecodeOAI p pend buffer chunks := by
  intro chunks
  induction chunks with
  | nil => intro pend buffer; simp [streamDecodeResp, streamDecodeOAI, finalFlushResp_eq_OAI]
  | cons ch rest ih =>
    intro pend buffer
    simp only [streamDecodeResp, streamDecodeOAI, ih]

theorem utf8Write_ascii (bs : List Nat) (h : ∀ c ∈ bs, c < 128) :
    utf8Write [] bs = ([], bs) := by
  induction bs with
  | nil => rfl
  | cons b bs ih =>
    have hb : b < 128 := h b (List.mem_cons_self b bs)
    have ih2 := ih (fun c hc => h c (List.mem_cons_of_mem b hc))
    simp [utf8Write, utf8Step, utf8Width, hb, ih2]

theorem jsTrimRight_append (x u : List Nat) (hu : jsTrimRight u = u) (hne : u ≠ []) :
    jsTrimRight (x ++ u) = x ++ u := by
  have h1 : u.reverse.dropWhile jsWhitespace = u.reverse := by
    have h2 := congrArg List.reverse hu
    rw [jsTrimRight, List.reverse_reverse] at h2
    exact h2
  have h3 : (u.reverse.dropWhile jsWhitespace).isEmpty = false := by
    rw [h1]
    simpa [List.isEmpty_iff] using hne
  rw [jsTrimRight, List.reverse_append, List.dropWhile_append, h3]
  simp [h1]

theorem jsTrim_data_append (u : List Nat) (hr : jsTrimRight u = u) (hne : u ≠ []) :
    jsTrim (dataPfx ++ u) = dataPfx ++ u := by
  rw [jsTrim, show jsTrimLeft (dataPfx ++ u) = dataPfx ++ u from rfl]
  exact jsTrimRight_append dataPfx u hr hne

theorem processLine_data (p : List Nat → Option Json) (u : List Nat) (hne : u ≠ [])
    (hl : jsTrimLeft u = u) (hr : jsTrimRight u = u) (hd : u ≠ doneLit) :
    processLine p (dataPfx ++ u) = (p u, false) := by
  have ht : jsTrim (dataPfx ++ u) = dataPfx ++ u := jsTrim_data_append u hr hne
  have hpfx : dataPfx.isPrefixOf (dataPfx ++ u) = true := by simp [dataPfx, List.isPrefixOf]
  have hdrop : (dataPfx ++ u).drop 6 = u := rfl
  have hpl : jsTrim u = u := by rw [jsTrim, hl, hr]
  simp only [processLine, ht, hpfx, if_true, hdrop, hpl, if_neg hd]

theorem processLine_done (p : List Nat → Option Json) :
    processLine p (dataPfx ++ doneLit) = (none, true) := rfl

theorem splitNl_single (x : List Nat) (h : ∀ c ∈ x, c ≠ 10) :
    splitNl (x ++ [10]) = ([x], []) := by
  induction x with
  | nil => simp [splitNl]
  | cons a x ih =>
    have ha : a ≠ 10 := h a (List.mem_cons_self a x)
    rw [List.cons_append, splitNl_cons_ne a ha,
      ih (fun c hc => h c (List.mem_cons_of_mem a hc))]

theorem finalFlushOAI_data (p : List Nat → Option Json) (u : List Nat) (hne : u ≠ [])
    (hl : jsTrimLeft u = u) (hr : jsTrimRight u = u) (hd : u ≠ doneLit) :
    finalFlushOAI p (dataPfx ++ u) =
      (match p u with | some v => [v] | none => []) := by
  have ht : jsTrim (dataPfx ++ u) = dataPfx ++ u := jsTrim_data_append u hr hne
  have hpfx : dataPfx.isPrefixOf (dataPfx ++ u) = true := by simp [dataPfx, List.isPrefixOf]
  have hdrop : (dataPfx ++ u).drop 6 = u := rfl
  have hpl : jsTrim u = u := by rw [jsTrim, hl, hr]
  have hne2 : dataPfx ++ u ≠ [] := by simp [dataPfx]
  simp only [finalFlushOAI, if_neg hne2, ht, hpfx, if_true, hdrop, hpl, if_neg hd]

theorem dataPfx_ascii : ∀ c ∈ dataPfx, c < 128 ∧ c ≠ 10 := by decide

theorem mem_append_bound (u w : List Nat) (hu : ∀ c ∈ u, c < 128) (hw : ∀ c ∈ w, c < 128) :
    ∀ c ∈ u ++ w, c < 128 := by
  intro c hc
  rcases List.mem_append.1 hc with h | h
  · exact hu c h
  · exact hw c h

theorem mem_append_no_nl (u w : List Nat) (hu : ∀ c ∈ u, c ≠ 10) (hw : ∀ c ∈ w, c ≠ 10) :
    ∀ c ∈ u ++ w, c ≠ 10 := by
  intro c hc
  rcases List.mem_append.1 hc with h | h
  · exact hu c h
  · exact hw c h

/-- C7: a final data line without a trailing newline is still emitted through
    the end-of-stream flush of streamApi. -/
theorem c7_end_of_stream_flush (p : List Nat → Option Json) (u : List Nat) (v : Json)
    (hA : ∀ c ∈ u, c < 128) (hnl : ∀ c ∈ u, c ≠ 10) (hne : u ≠ [])
    (hl : jsTrimLeft u = u) (hr : jsTrimRight u = u) (hd : u ≠ doneLit)
    (hp : p u = some v) :
    streamDecodeOAI p [] [] [dataPfx ++ u] = ([v], false) := by
  have hA2 : ∀ c ∈ dataPfx ++ u, c < 128 :=
    mem_append_bound _ _ (fun c hc => (dataPfx_ascii c hc).1) hA
  have hnl2 : ∀ c ∈ dataPfx ++ u, c ≠ 10 :=
    mem_append_no_nl _ _ (fun c hc => (dataPfx_ascii c hc).2) hnl
  have hasc : utf8Write [] (dataPfx ++ u) = ([], dataPfx ++ u) := utf8Write_ascii _ hA2
  have hflush : finalFlushOAI p (dataPfx ++ u) = [v] := by
    rw [finalFlushOAI_data p u hne hl hr hd, hp]
  simp only [streamDecodeOAI, hasc, List.nil_append]
  rw [splitNl_no_nl _ hnl2]
  simp [drainLines, utf8End, List.append_nil, hflush]

/-- C9: a data-space line whose trimmed payload parses — as any kind of JSON
    value — emits that value, while a line with no space after the data colon
    is silently dropped and never parsed. -/
theorem c9_any_json_kind (p : List Nat → Option Json) (u : List Nat) (v : Json)
    (c : Nat) (s' : List Nat)
    (hA : ∀ x ∈ u, x < 128) (hnl : ∀ x ∈ u, x ≠ 10) (hne : u ≠ [])
    (hl : jsTrimLeft u = u) (hr : jsTrimRight u = u) (hd : u ≠ doneLit)
    (hp : p u = some v)
    (hA2 : ∀ x ∈ c :: s', x < 128) (hnl2 : ∀ x ∈ c :: s', x ≠ 10)
    (hc32 : c ≠ 32)
    (hr2 : jsTrimRight (c :: s') = c :: s') :
    streamDecodeOAI p [] [] [dataPfx ++ u ++ [10]] = ([v], false) ∧
    streamDecodeOAI p [] [] [dataColon ++ (c :: s') ++ [10]] = ([], false) := by
  constructor
  · have hA3 : ∀ x ∈ dataPfx ++ u, x < 128 :=
      mem_append_bound _ _ (fun x hx => (dataPfx_ascii x hx).1) hA
    have hnl3 : ∀ x ∈ dataPfx ++ u, x ≠ 10 :=
      mem_append_no_nl _ _ (fun x hx => (dataPfx_ascii x hx).2) hnl
    have hA4 : ∀ x ∈ dataPfx ++ u ++ [10], x < 128 := by
      intro x hx
      rcases List.mem_append.1 hx with h | h
      · exact hA3 x h
      · simp at h; omega
    have hasc : utf8Write [] (dataPfx ++ u ++ [10]) = ([], dataPfx ++ u ++ [10]) :=
      utf8Write_ascii _ hA4
    have hsp : splitNl (dataPfx ++ u ++ [10]) = ([dataPfx ++ u], []) :=
      splitNl_single _ hnl3
    have hline : processLine p (dataPfx ++ u) = (some v, false) := by
      rw [processLine_data p u hne hl hr hd, hp]
    simp only [streamDecodeOAI, hasc, List.nil_append, hsp, drainLines, hline]
    simp [drainLines, utf8End, finalFlushOAI]
  · have hd0 : ∀ x ∈ dataColon, x < 128 ∧ x ≠ 10 := by decide
    have hA3 : ∀ x ∈ dataColon ++ (c :: s'), x < 128 :=
      mem_append_bound _ _ (fun x hx => (hd0 x hx).1) hA2
    have hnl3 : ∀ x ∈ dataColon ++ (c :: s'), x ≠ 10 :=
      mem_append_no_nl _ _ (fun x hx => (hd0 x hx).2) hnl2
    have hA4 : ∀ x ∈ dataColon ++ (c :: s') ++ [10], x < 128 := by
      intro x hx
      rcases List.mem_append.1 hx with h | h
      · exact hA3 x h
      · simp at h; omega
    have hasc : utf8Write [] (dataColon ++ (c :: s') ++ [10]) =
        ([], dataColon ++ (c :: s') ++ [10]) := utf8Write_ascii _ hA4
    have hsp : splitNl (dataColon ++ (c :: s') ++ [10]) = ([dataColon ++ (c :: s')], []) :=
      splitNl_single _ hnl3
    have ht : jsTrim (dataColon ++ (c :: s')) = dataColon ++ (c :: s') := by
      rw [jsTrim, show jsTrimLeft (dataColon ++ (c :: s')) = dataColon ++ (c :: s') from rfl]
      exact jsTrimRight_append dataColon (c :: s') hr2 (by simp)
    have hpfx : dataPfx.isPrefixOf (dataColon ++ (c :: s')) = false := by
      simp [dataPfx, dataColon, List.isPrefixOf]
      intro h
      exact absurd h.symm hc32
    have hline : processLine p (dataColon ++ (c :: s')) = (none, false) := by
      simp only [processLine, ht, hpfx, Bool.false_eq_true, if_false]
    simp only [streamDecodeOAI, hasc, List.nil_append, hsp, drainLines, hline]
    simp [drainLines, utf8End, finalFlushOAI]

/-- C6: a data line with malformed JSON is dropped without aborting the
    session, both as a leading chunk of the stream and at any position in the
    line sequence fed to the drain loop. -/
theorem c6_malformed_line_skipped (p : List Nat → Option Json) (u : List Nat)
    (rest : List (List Nat))
    (hA : ∀ x ∈ u, x < 128) (hnl : ∀ x ∈ u, x ≠ 10) (hne : u ≠ [])
    (hl : jsTrimLeft u = u) (hr : jsTrimRight u = u) (hd : u ≠ doneLit)
    (hp : p u = none) :
    streamDecodeOAI p [] [] ((dataPfx ++ u ++ [10]) :: rest) = streamDecodeOAI p [] [] rest ∧
    ∀ L1 L2, drainLines p (L1 ++ (dataPfx ++ u) :: L2) = drainLines p (L1 ++ L2) := by
  have hline : processLine p (dataPfx ++ u) = (none, false) := by
    rw [processLine_data p u hne hl hr hd, hp]
  constructor
  · have hA3 : ∀ x ∈ dataPfx ++ u, x < 128 :=
      mem_append_bound _ _ (fun x hx => (dataPfx_ascii x hx).1) hA
    have hnl3 : ∀ x ∈ dataPfx ++ u, x ≠ 10 :=
      mem_append_no_nl _ _ (fun x hx => (dataPfx_ascii x hx).2) hnl
    have hA4 : ∀ x ∈ dataPfx ++ u ++ [10], x < 128 := by
      intro x hx
      rcases List.mem_append.1 hx with h | h
      · exact hA3 x h
      · simp at h; omega
    have hasc : utf8Write [] (dataPfx ++ u ++ [10]) = ([], dataPfx ++ u ++ [10]) :=
      utf8Write_ascii _ hA4
    have hsp : splitNl (dataPfx ++ u ++ [10]) = ([dataPfx ++ u], []) :=
      splitNl_single _ hnl3
    cases hrest : streamDecodeOAI p [] [] rest with
    | mk evs done =>
      simp only [streamDecodeOAI, hasc, List.nil_append, hsp, drainLines, hline, hrest]
      simp
  · intro L1 L2
    induction L1 with
    | nil => simp [drainLines, hline]
    | cons l ls ih =>
      simp only [List.cons_append, drainLines, List.append_eq, ih]

/-- C2: the decoded event sequence of the streamApi session depends only on
    the concatenated byte sequence, not on how it is split into chunks. -/
theorem c2_chunking_invariance (p : List Nat → Option Json) (c1 c2 : List (List Nat))
    (h : c1.flatten = c2.flatten) :
    streamDecodeOAI p [] [] c1 = streamDecodeOAI p [] [] c2 := by
  rw [streamDecodeOAI_eq_lineRun p c1 [] [] (by simp),
    streamDecodeOAI_eq_lineRun p c2 [] [] (by simp), h]

/-- C5: once a DONE line is processed mid-stream, appending further queued
    chunks changes nothing — they are never read — and the DONE line itself
    emits no event. -/
theorem c5_done_terminates (p : List Nat → Option Json) (l1 l2 : List (List Nat))
    (h : (streamDecodeOAI p [] [] l1).2 = true) :
    streamDecodeOAI p [] [] (l1 ++ l2) = streamDecodeOAI p [] [] l1 ∧
    processLine p (dataPfx ++ doneLit) = (none, true) := by
  refine ⟨?_, processLine_done p⟩
  have h1 := streamDecodeOAI_eq_lineRun p l1 [] [] (by simp)
  have h2 := streamDecodeOAI_eq_lineRun p (l1 ++ l2) [] [] (by simp)
  rcases hwa : utf8Write [] l1.flatten with ⟨pa, outa⟩
  rcases hwb : utf8Write pa l2.flatten with ⟨pb, outb⟩
  have hW : utf8Write [] (l1 ++ l2).flatten = (pb, outa ++ outb) := by
    rw [List.flatten_append, utf8Write_append, hwa]
    dsimp only
    rw [hwb]
  rcases hsa : splitNl outa with ⟨linesA, partA⟩
  have hpartA : ∀ c ∈ partA, c ≠ 10 := by
    intro c hc
    have := splitNl_partial_no_nl outa c
    rw [hsa] at this
    exact this hc
  have hsplit1 : splitNl (outa ++ utf8End pa) = (linesA, partA ++ utf8End pa) := by
    rw [splitNl_append, hsa]
    dsimp only
    rw [splitNl_no_nl (partA ++ utf8End pa)
      (mem_append_no_nl _ _ hpartA (utf8End_no_nl pa))]
    simp
  have hsplit2 : splitNl (outa ++ (outb ++ utf8End pb)) =
      (linesA ++ (splitNl (partA ++ (outb ++ utf8End pb))).1,
       (splitNl (partA ++ (outb ++ utf8End pb))).2) := by
    rw [splitNl_append, hsa]
  rw [h1, hwa] at h
  dsimp only at h
  rw [List.nil_append, lineRun, hsplit1] at h
  dsimp only at h
  rcases hda : drainLines p linesA with ⟨evsA, doneA⟩
  rw [hda] at h
  cases doneA with
  | false => simp at h
  | true =>
    rw [h1, h2, hW, hwa]
    dsimp only
    rw [List.nil_append, List.nil_append, lineRun, lineRun, hsplit1]
    rw [show outa ++ outb ++ utf8End pb = outa ++ (outb ++ utf8End pb) by
      simp [List.append_assoc]]
    rw [hsplit2]
    dsimp only
    rw [drainLines_append, hda]
    simp

/-- Witness for C2: the spec's own example split across a data prefix and a
    multi-byte character boundary decodes identically to the unsplit form. -/
theorem c2_chunking_invariance_witness :
    ([[100, 97, 116, 97], [58, 32, 34, 228], [189, 160, 34, 10]] : List (List Nat)).flatten =
      ([[100, 97, 116, 97, 58, 32, 34, 228, 189, 160, 34, 10]] : List (List Nat)).flatten ∧
    streamDecodeOAI jsonParse [] [] [[100, 97, 116, 97], [58, 32, 34, 228], [189, 160, 34, 10]] =
      streamDecodeOAI jsonParse [] [] [[100, 97, 116, 97, 58, 32, 34, 228, 189, 160, 34, 10]] :=
  ⟨by decide, c2_chunking_invariance jsonParse _ _ (by decide)⟩

/-- Witness for C5: a DONE line terminates and a queued trailing data chunk
    is never decoded. -/
theorem c5_done_terminates_witness :
    streamDecodeOAI jsonParse [] []
        ([[100, 97, 116, 97, 58, 32, 91, 68, 79, 78, 69, 93, 10]] ++
          [[100, 97, 116, 97, 58, 32, 49, 10]]) =
      streamDecodeOAI jsonParse [] [] [[100, 97, 116, 97, 58, 32, 91, 68, 79, 78, 69, 93, 10]] ∧
    processLine jsonParse (dataPfx ++ doneLit) = (none, true) :=
  c5_done_terminates jsonParse
    [[100, 97, 116, 97, 58, 32, 91, 68, 79, 78, 69, 93, 10]]
    [[100, 97, 116, 97, 58, 32, 49, 10]] (by decide)

/-- Witness for C6: a malformed data line is skipped and the following valid
    line still decodes. -/
theorem c6_malformed_line_skipped_witness :
    streamDecodeOAI jsonParse [] []
        [[100, 97, 116, 97, 58, 32, 123, 98, 97, 100, 10],
         [100, 97, 116, 97, 58, 32, 50, 10]] =
      streamDecodeOAI jsonParse [] [] [[100, 97, 116, 97, 58, 32, 50, 10]] ∧
    drainLines jsonParse
        [[100, 97, 116, 97, 58, 32, 123, 98, 97, 100], [100, 97, 116, 97, 58, 32, 51]] =
      drainLines jsonParse [[100, 97, 116, 97, 58, 32, 51]] :=
  ⟨(c6_malformed_line_skipped jsonParse [123, 98, 97, 100]
      [[100, 97, 116, 97, 58, 32, 50, 10]] (by decide) (by decide) (by decide)
      (by decide) (by decide) (by decide) rfl).1,
   (c6_malformed_line_skipped jsonParse [123, 98, 97, 100]
      [[100, 97, 116, 97, 58, 32, 50, 10]] (by decide) (by decide) (by decide)
      (by decide) (by decide) (by decide) rfl).2 [] [[100, 97, 116, 97, 58, 32, 51]]⟩

/-- Witness for C7: the spec's example of a final data chunk with no trailing
    newline emitting its object through the flush. -/
theorem c7_end_of_stream_flush_witness :
    streamDecodeOAI jsonParse [] []
        [[100, 97, 116, 97, 58, 32, 123, 34, 120, 34, 58, 50, 125]] =
      ([Json.obj [([120], Json.num 2)]], false) :=
  c7_end_of_stream_flush jsonParse [123, 34, 120, 34, 58, 50, 125] _
    (by decide) (by decide) (by decide) (by decide) (by decide) (by decide) rfl

/-- Witness for C9: payloads null, 42, true and a quoted string all emit
    events, and a line with no space after the colon emits nothing. -/
theorem c9_any_json_kind_witness :
    streamDecodeOAI jsonParse [] [] [[100, 97, 116, 97, 58, 32, 110, 117, 108, 108, 10]] =
      ([Json.null], false) ∧
    streamDecodeOAI jsonParse [] [] [[100, 97, 116, 97, 58, 32, 52, 50, 10]] =
      ([Json.num 42], false) ∧
    streamDecodeOAI jsonParse [] [] [[100, 97, 116, 97, 58, 32, 116, 114, 117, 101, 10]] =
      ([Json.jbool true], false) ∧
    streamDecodeOAI jsonParse [] [] [[100, 97, 116, 97, 58, 32, 34, 104, 105, 34, 10]] =
      ([Json.str [104, 105]], false) ∧
    streamDecodeOAI jsonParse [] [] [[100, 97, 116, 97, 58, 52, 50, 10]] = ([], false) :=
  ⟨(c9_any_json_kind jsonParse [110, 117, 108, 108] Json.null 52 [50]
      (by decide) (by decide) (by decide) (by decide) (by decide) (by decide) rfl
      (by decide) (by decide) (by decide) (by decide)).1,
   (c9_any_json_kind jsonParse [52, 50] (Json.num 42) 52 [50]
      (by decide) (by decide) (by decide) (by decide) (by decide) (by decide) rfl
      (by decide) (by decide) (by decide) (by decide)).1,
   (c9_any_json_kind jsonParse [116, 114, 117, 101] (Json.jbool true) 52 [50]
      (by decide) (by decide) (by decide) (by decide) (by decide) (by decide) rfl
      (by decide) (by decide) (by decide) (by decide)).1,
   (c9_any_json_kind jsonParse [34, 104, 105, 34] (Json.str [104, 105]) 52 [50]
      (by decide) (by decide) (by decide) (by decide) (by decide) (by decide) rfl
      (by decide) (by decide) (by decide) (by decide)).1,
   (c9_any_json_kind jsonParse [110, 117, 108, 108] Json.null 52 [50]
      (by decide) (by decide) (by decide) (by decide) (by decide) (by decide) rfl
      (by decide) (by decide) (by decide) (by decide)).2⟩

/-- C4: a 401 or 403 outcome propagates at once from callApi and streamApi of
    both variants: one attempt, no delay, error unchanged, whatever the
    remaining retry budget. -/
theorem c4_auth_propagates_immediately (cfg : Config) (trC : Nat → Payload → CallResult)
    (trS : Nat → Payload → StreamFetch) (body : Payload) (r : Nat) (e : HttpError)
    (hs : e.status = some 401 ∨ e.status = some 403)
    (hC : trC r body = CallResult.err e)
    (hS : trS r (setKey body streamKey (Json.jbool true)) = StreamFetch.err e) :
    OpenAIApiService.callApi cfg trC body r = ⟨1, [], [body], CallResult.err e⟩ ∧
    OpenAIResponsesApiService.callApi cfg trC body r = ⟨1, [], [body], CallResult.err e⟩ ∧
    OpenAIApiService.streamApi cfg trS body r =
      ⟨1, [], [setKey body streamKey (Json.jbool true)], StreamResult.err e⟩ ∧
    OpenAIResponsesApiService.streamApi cfg trS body r =
      ⟨1, [], [setKey body streamKey (Json.jbool true)], StreamResult.err e⟩ := by
  refine ⟨?_, ?_, ?_, ?_⟩
  · rw [OpenAIApiService.callApi.eq_def]
    simp only [hC]
    rw [if_pos hs]
  · rw [OpenAIResponsesApiService.callApi.eq_def]
    simp only [hC]
    rw [if_pos hs]
  · rw [OpenAIApiService.streamApi.eq_def]
    simp only [hS]
    rw [if_pos hs]
  · rw [OpenAIResponsesApiService.streamApi.eq_def]
    simp only [hS]
    rw [if_pos hs]

/-- Witness for C4 at a concrete configuration with a 401 transport. -/
theorem c4_auth_propagates_immediately_witness :
    OpenAIApiService.callApi ⟨some 3, some 1000⟩
        (fun _ _ => CallResult.err ⟨some 401⟩) [] 0 =
      ⟨1, [], [[]], CallResult.err ⟨some 401⟩⟩ ∧
    OpenAIResponsesApiService.callApi ⟨some 3, some 1000⟩
        (fun _ _ => CallResult.err ⟨some 401⟩) [] 0 =
      ⟨1, [], [[]], CallResult.err ⟨some 401⟩⟩ ∧
    OpenAIApiService.streamApi ⟨some 3, some 1000⟩
        (fun _ _ => StreamFetch.err ⟨some 401⟩) [] 0 =
      ⟨1, [], [setKey [] streamKey (Json.jbool true)], StreamResult.err ⟨some 401⟩⟩ ∧
    OpenAIResponsesApiService.streamApi ⟨some 3, some 1000⟩
        (fun _ _ => StreamFetch.err ⟨some 401⟩) [] 0 =
      ⟨1, [], [setKey [] streamKey (Json.jbool true)], StreamResult.err ⟨some 401⟩⟩ :=
  c4_auth_propagates_immediately ⟨some 3, some 1000⟩
    (fun _ _ => CallResult.err ⟨some 401⟩) (fun _ _ => StreamFetch.err ⟨some 401⟩)
    [] 0 ⟨some 401⟩ (Or.inl rfl) rfl rfl

/-- C3: with maxRetries three and base delay b configured, a transport that
    returns 429 on the first two attempts and succeeds on the third makes
    callApi perform exactly three attempts, wait b then two times b (the
    formula b * 2 ^ n from retry index zero), and return the success body. -/
theorem c3_two_429_then_success (cfg : Config) (b : Nat) (tr : Nat → Payload → CallResult)
    (body : Payload) (d : Json)
    (hm : cfg.REQUEST_MAX_RETRIES = some 3) (hb : cfg.REQUEST_BASE_DELAY = some b)
    (h0 : tr 0 body = CallResult.err ⟨some 429⟩)
    (h1 : tr 1 body = CallResult.err ⟨some 429⟩)
    (h2 : tr 2 body = CallResult.ok d) :
    OpenAIApiService.callApi cfg tr body 0 =
      ⟨3, [b, 2 * b], [body, body, body], CallResult.ok d⟩ := by
  have e2 : OpenAIApiService.callApi cfg tr body 2 = ⟨1, [], [body], CallResult.ok d⟩ := by
    rw [OpenAIApiService.callApi.eq_def]
    simp only [h2]
  have e1 : OpenAIApiService.callApi cfg tr body 1 =
      ⟨2, [jsBackoff cfg.REQUEST_BASE_DELAY 1], [body, body], CallResult.ok d⟩ := by
    rw [OpenAIApiService.callApi.eq_def]
    simp only [h1]
    rw [if_neg (by simp), dif_pos (by simp [hm, jsLtOpt]), e2]
  have e0 : OpenAIApiService.callApi cfg tr body 0 =
      ⟨3, [jsBackoff cfg.REQUEST_BASE_DELAY 0, jsBackoff cfg.REQUEST_BASE_DELAY 1],
        [body, body, body], CallResult.ok d⟩ := by
    rw [OpenAIApiService.callApi.eq_def]
    simp only [h0]
    rw [if_neg (by simp), dif_pos (by simp [hm, jsLtOpt]), e1]
  rw [e0, hb]
  simp [jsBackoff]
  ring

/-- Witness for C3 at base delay 1000 and a transport failing twice. -/
theorem c3_two_429_then_success_witness :
    OpenAIApiService.callApi ⟨some 3, some 1000⟩
        (fun r _ => if r < 2 then CallResult.err ⟨some 429⟩ else CallResult.ok Json.null)
        [] 0 =
      ⟨3, [1000, 2 * 1000], [[], [], []], CallResult.ok Json.null⟩ :=
  c3_two_429_then_success ⟨some 3, some 1000⟩ 1000 _ [] Json.null rfl rfl rfl rfl rfl

/-- C1 (failing input): with both retry parameters unset, OpenAIApiService
    propagates a 429 at once — retryCount < undefined is false — instead of
    behaving as though maxRetries were 3 and baseDelay 1000 as the sibling
    OpenAIResponsesApiService does on the same transport. -/
theorem c1_core_unset_retry_params_no_retry (body : Payload) :
    OpenAIApiService.callApi ⟨none, none⟩ (fun _ _ => CallResult.err ⟨some 429⟩) body 0 =
      ⟨1, [], [body], CallResult.err ⟨some 429⟩⟩ ∧
    OpenAIApiService.streamApi ⟨none, none⟩ (fun _ _ => StreamFetch.err ⟨some 429⟩) body 0 =
      ⟨1, [], [setKey body streamKey (Json.jbool true)], StreamResult.err ⟨some 429⟩⟩ ∧
    OpenAIResponsesApiService.callApi ⟨none, none⟩ (fun _ _ => CallResult.err ⟨some 429⟩) body 0 =
      ⟨4, [1000, 2000, 4000], [body, body, body, body], CallResult.err ⟨some 429⟩⟩ := by
  refine ⟨?_, ?_, ?_⟩
  · rw [OpenAIApiService.callApi.eq_def]
    simp [jsLtOpt, is5xx]
  · rw [OpenAIApiService.streamApi.eq_def]
    simp [jsLtOpt, is5xx]
  · simp [OpenAIResponsesApiService.callApi, jsOr]

theorem OAI_callApi_sent_replicate (cfg : Config) (tr : Nat → Payload → CallResult)
    (body : Payload) (r : Nat) :
    (OpenAIApiService.callApi cfg tr body r).sent =
      List.replicate (OpenAIApiService.callApi cfg tr body r).attempts body := by
  induction r using OpenAIApiService.callApi.induct cfg tr body with
  | case1 x data h => rw [OpenAIApiService.callApi.eq_def, h]; rfl
  | case2 x e h hauth => rw [OpenAIApiService.callApi.eq_def, h]; simp [hauth]
  | case3 x e h hauth hc ih =>
    rw [OpenAIApiService.callApi.eq_def, h]
    simp only [if_neg hauth, dif_pos hc]
    simp [ih, List.replicate_succ]
  | case4 x e h hauth hc1 hc ih =>
    rw [OpenAIApiService.callApi.eq_def, h]
    simp only [if_neg hauth, dif_neg hc1, dif_pos hc]
    simp [ih, List.replicate_succ]
  | case5 x e h hauth hc1 hc2 =>
    rw [OpenAIApiService.callApi.eq_def, h]
    simp [hauth, hc1, hc2]

theorem Resp_callApi_sent_replicate (cfg : Config) (tr : Nat → Payload → CallResult)
    (body : Payload) (r : Nat) :
    (OpenAIResponsesApiService.callApi cfg tr body r).sent =
      List.replicate (OpenAIResponsesApiService.callApi cfg tr body r).attempts body := by
  induction r using OpenAIResponsesApiService.callApi.induct cfg tr body with
  | case1 x data h => rw [OpenAIResponsesApiService.callApi.eq_def, h]; rfl
  | case2 x e h hauth => rw [OpenAIResponsesApiService.callApi.eq_def, h]; simp [hauth]
  | case3 x e h hauth hc ih =>
    rw [OpenAIResponsesApiService.callApi.eq_def, h]
    simp only [if_neg hauth, dif_pos hc]
    simp [ih, List.replicate_succ]
  | case4 x e h hauth hc1 hc ih =>
    rw [OpenAIResponsesApiService.callApi.eq_def, h]
    simp only [if_neg hauth, dif_neg hc1, dif_pos hc]
    simp [ih, List.replicate_succ]
  | case5 x e h hauth hc1 hc2 =>
    rw [OpenAIResponsesApiService.callApi.eq_def, h]
    simp [hauth, hc1, hc2]

theorem OAI_streamApi_sent_replicate (cfg : Config) (tr : Nat → Payload → StreamFetch)
    (body : Payload) (r : Nat) :
    (OpenAIApiService.streamApi cfg tr body r).sent =
      List.replicate (OpenAIApiService.streamApi cfg tr body r).attempts
        (setKey body streamKey (Json.jbool true)) := by
  induction r using OpenAIApiService.streamApi.induct cfg tr body with
  | case1 x w chunks h =>
    have h2 : tr x (setKey body streamKey (Json.jbool true)) = StreamFetch.ok chunks := h
    rw [OpenAIApiService.streamApi.eq_def]
    simp only [h2]
    rfl
  | case2 x w e h hauth =>
    have h2 : tr x (setKey body streamKey (Json.jbool true)) = StreamFetch.err e := h
    rw [OpenAIApiService.streamApi.eq_def]
    simp only [h2]
    simp [hauth]
  | case3 x w e h hauth hc ih =>
    have h2 : tr x (setKey body streamKey (Json.jbool true)) = StreamFetch.err e := h
    rw [OpenAIApiService.streamApi.eq_def]
    simp only [h2, if_neg hauth, dif_pos hc]
    simp [ih, List.replicate_succ]
  | case4 x w e h hauth hc1 hc ih =>
    have h2 : tr x (setKey body streamKey (Json.jbool true)) = StreamFetch.err e := h
    rw [OpenAIApiService.streamApi.eq_def]
    simp only [h2, if_neg hauth, dif_neg hc1, dif_pos hc]
    simp [ih, List.replicate_succ]
  | case5 x w e h hauth hc1 hc2 =>
    have h2 : tr x (setKey body streamKey (Json.jbool true)) = StreamFetch.err e := h
    rw [OpenAIApiService.streamApi.eq_def]
    simp only [h2]
    simp [hauth, hc1, hc2]

theorem Resp_streamApi_sent_replicate (cfg : Config) (tr : Nat → Payload → StreamFetch)
    (body : Payload) (r : Nat) :
    (OpenAIResponsesApiService.streamApi cfg tr body r).sent =
      List.replicate (OpenAIResponsesApiService.streamApi cfg tr body r).attempts
        (setKey body streamKey (Json.jbool true)) := by
  induction r using OpenAIResponsesApiService.streamApi.induct cfg tr body with
  | case1 x w chunks h =>
    have h2 : tr x (setKey body streamKey (Json.jbool true)) = StreamFetch.ok chunks := h
    rw [OpenAIResponsesApiService.streamApi.eq_def]
    simp only [h2]
    rfl
  | case2 x w e h hauth =>
    have h2 : tr x (setKey body streamKey (Json.jbool true)) = StreamFetch.err e := h
    rw [OpenAIResponsesApiService.streamApi.eq_def]
    simp only [h2]
    simp [hauth]
  | case3 x w e h hauth hc ih =>
    have h2 : tr x (setKey body streamKey (Json.jbool true)) = StreamFetch.err e := h
    rw [OpenAIResponsesApiService.streamApi.eq_def]
    simp only [h2, if_neg hauth, dif_pos hc]
    simp [ih, List.replicate_succ]
  | case4 x w e h hauth hc1 hc ih =>
    have h2 : tr x (setKey body streamKey (Json.jbool true)) = StreamFetch.err e := h
    rw [OpenAIResponsesApiService.streamApi.eq_def]
    simp only [h2, if_neg hauth, dif_neg hc1, dif_pos hc]
    simp [ih, List.replicate_succ]
  | case5 x w e h hauth hc1 hc2 =>
    have h2 : tr x (setKey body streamKey (Json.jbool true)) = StreamFetch.err e := h
    rw [OpenAIResponsesApiService.streamApi.eq_def]
    simp only [h2]
    simp [hauth, hc1, hc2]

/-- C8: every retry of one logical call re-sends the original payload
    unchanged, and in streaming mode every attempt's wire body is the payload
    extended with stream set to true. -/
theorem c8_payload_immutable_across_retries (cfg : Config)
    (trC : Nat → Payload → CallResult) (trS : Nat → Payload → StreamFetch)
    (body : Payload) (r : Nat) :
    (OpenAIApiService.callApi cfg trC body r).sent =
      List.replicate (OpenAIApiService.callApi cfg trC body r).attempts body ∧
    (OpenAIResponsesApiService.callApi cfg trC body r).sent =
      List.replicate (OpenAIResponsesApiService.callApi cfg trC body r).attempts body ∧
    (OpenAIApiService.streamApi cfg trS body r).sent =
      List.replicate (OpenAIApiService.streamApi cfg trS body r).attempts
        (setKey body streamKey (Json.jbool true)) ∧
    (OpenAIResponsesApiService.streamApi cfg trS body r).sent =
      List.replicate (OpenAIResponsesApiService.streamApi cfg trS body r).attempts
        (setKey body streamKey (Json.jbool true)) :=
  ⟨OAI_callApi_sent_replicate cfg trC body r, Resp_callApi_sent_replicate cfg trC body r,
   OAI_streamApi_sent_replicate cfg trS body r, Resp_streamApi_sent_replicate cfg trS body r⟩

/-- Counterexample to C10 as stated: with both retry parameters set — max
    retries to 0, base delay to 1000 — the variants diverge, because the
    logical-or defaulting of the Responses variant treats the set value 0 as
    unset: one attempt versus four on an always-429 transport. -/
theorem c10_set_zero_retries_diverges :
    (OpenAIApiService.callApi ⟨some 0, some 1000⟩
        (fun _ _ => CallResult.err ⟨some 429⟩) [] 0).attempts = 1 ∧
    (OpenAIResponsesApiService.callApi ⟨some 0, some 1000⟩
        (fun _ _ => CallResult.err ⟨some 429⟩) [] 0).attempts = 4 := by
  constructor
  · rw [OpenAIApiService.callApi.eq_def]
    simp [jsLtOpt, is5xx]
  · simp [OpenAIResponsesApiService.callApi, jsOr]

/-- C10 (amended): when both retry parameters are set to nonzero values, the
    two services produce identical call traces and identical stream traces on
    identical transport outcomes. -/
theorem c10_variants_agree_on_nonzero_config (cfg : Config) (m b : Nat)
    (trC : Nat → Payload → CallResult) (trS : Nat → Payload → StreamFetch)
    (body : Payload) (r : Nat)
    (hm : cfg.REQUEST_MAX_RETRIES = some m) (hm0 : m ≠ 0)
    (hb : cfg.REQUEST_BASE_DELAY = some b) (hb0 : b ≠ 0) :
    OpenAIApiService.callApi cfg trC body r =
      OpenAIResponsesApiService.callApi cfg trC body r ∧
    OpenAIApiService.streamApi cfg trS body r =
      OpenAIResponsesApiService.streamApi cfg trS body r := by
  have hOrB : jsOr cfg.REQUEST_BASE_DELAY 1000 = b := by rw [hb]; simp [jsOr, hb0]
  have hBk : ∀ x : Nat, jsBackoff cfg.REQUEST_BASE_DELAY x = b * 2 ^ x := by
    intro x; rw [hb]; rfl
  have hlt : ∀ x : Nat,
      jsLtOpt x cfg.REQUEST_MAX_RETRIES = true ↔ x < jsOr cfg.REQUEST_MAX_RETRIES 3 := by
    intro x; rw [hm]; simp [jsLtOpt, jsOr, hm0]
  constructor
  · induction r using OpenAIApiService.callApi.induct cfg trC body with
    | case1 x data h =>
      rw [OpenAIApiService.callApi.eq_def, OpenAIResponsesApiService.callApi.eq_def, h]
    | case2 x e h hauth =>
      rw [OpenAIApiService.callApi.eq_def, OpenAIResponsesApiService.callApi.eq_def, h]
      dsimp only
      simp only [if_pos hauth]
    | case3 x e h hauth hc ih =>
      rw [OpenAIApiService.callApi.eq_def, OpenAIResponsesApiService.callApi.eq_def, h]
      dsimp only
      have hc2 : e.status = some 429 ∧ x < jsOr cfg.REQUEST_MAX_RETRIES 3 :=
        ⟨hc.1, (hlt x).1 hc.2⟩
      rw [if_neg hauth, if_neg hauth, dif_pos hc, dif_pos hc2]
      simp only [ih, hBk, hOrB]
    | case4 x e h hauth hc1 hc ih =>
      rw [OpenAIApiService.callApi.eq_def, OpenAIResponsesApiService.callApi.eq_def, h]
      dsimp only
      have hc12 : ¬(e.status = some 429 ∧ x < jsOr cfg.REQUEST_MAX_RETRIES 3) :=
        fun hx => hc1 ⟨hx.1, (hlt x).2 hx.2⟩
      have hc2 : is5xx e.status = true ∧ x < jsOr cfg.REQUEST_MAX_RETRIES 3 :=
        ⟨hc.1, (hlt x).1 hc.2⟩
      rw [if_neg hauth, if_neg hauth, dif_neg hc1, dif_neg hc12, dif_pos hc, dif_pos hc2]
      simp only [ih, hBk, hOrB]
    | case5 x e h hauth hc1 hc2 =>
      rw [OpenAIApiService.callApi.eq_def, OpenAIResponsesApiService.callApi.eq_def, h]
      dsimp only
      have hc12 : ¬(e.status = some 429 ∧ x < jsOr cfg.REQUEST_MAX_RETRIES 3) :=
        fun hx => hc1 ⟨hx.1, (hlt x).2 hx.2⟩
      have hc22 : ¬(is5xx e.status = true ∧ x < jsOr cfg.REQUEST_MAX_RETRIES 3) :=
        fun hx => hc2 ⟨hx.1, (hlt x).2 hx.2⟩
      rw [if_neg hauth, if_neg hauth, dif_neg hc1, dif_neg hc12, dif_neg hc2, dif_neg hc22]
  · induction r using OpenAIApiService.streamApi.induct cfg trS body with
    | case1 x w chunks h =>
      have h2 : trS x (setKey body streamKey (Json.jbool true)) = StreamFetch.ok chunks := h
      rw [OpenAIApiService.streamApi.eq_def, OpenAIResponsesApiService.streamApi.eq_def]
      simp only [h2, streamDecodeResp_eq_OAI]
    | case2 x w e h hauth =>
      have h2 : trS x (setKey body streamKey (Json.jbool true)) = StreamFetch.err e := h
      rw [OpenAIApiService.streamApi.eq_def, OpenAIResponsesApiService.streamApi.eq_def]
      simp only [h2, if_pos hauth]
    | case3 x w e h hauth hc ih =>
      have h2 : trS x (setKey body streamKey (Json.jbool true)) = StreamFetch.err e := h
      rw [OpenAIApiService.streamApi.eq_def, OpenAIResponsesApiService.streamApi.eq_def]
      have hc2 : e.status = some 429 ∧ x < jsOr cfg.REQUEST_MAX_RETRIES 3 :=
        ⟨hc.1, (hlt x).1 hc.2⟩
      simp only [h2]
      rw [if_neg hauth, if_neg hauth, dif_pos hc, dif_pos hc2]
      simp only [ih, hBk, hOrB]
    | case4 x w e h hauth hc1 hc ih =>
      have h2 : trS x (setKey body streamKey (Json.jbool true)) = StreamFetch.err e := h
      rw [OpenAIApiService.streamApi.eq_def, OpenAIResponsesApiService.streamApi.eq_def]
      have hc12 : ¬(e.status = some 429 ∧ x < jsOr cfg.REQUEST_MAX_RETRIES 3) :=
        fun hx => hc1 ⟨hx.1, (hlt x).2 hx.2⟩
      have hc2 : is5xx e.status = true ∧ x < jsOr cfg.REQUEST_MAX_RETRIES 3 :=
        ⟨hc.1, (hlt x).1 hc.2⟩
      simp only [h2]
      rw [if_neg hauth, if_neg hauth, dif_neg hc1, dif_neg hc12, dif_pos hc, dif_pos hc2]
      simp only [ih, hBk, hOrB]
    | case5 x w e h hauth hc1 hc2 =>
      have h2 : trS x (setKey body streamKey (Json.jbool true)) = StreamFetch.err e := h
      rw [OpenAIApiService.streamApi.eq_def, OpenAIResponsesApiService.streamApi.eq_def]
      have hc12 : ¬(e.status = some 429 ∧ x < jsOr cfg.REQUEST_MAX_RETRIES 3) :=
        fun hx => hc1 ⟨hx.1, (hlt x).2 hx.2⟩
      have hc22 : ¬(is5xx e.status = true ∧ x < jsOr cfg.REQUEST_MAX_RETRIES 3) :=
        fun hx => hc2 ⟨hx.1, (hlt x).2 hx.2⟩
      simp only [h2]
      rw [if_neg hauth, if_neg hauth, dif_neg hc1, dif_neg hc12, dif_neg hc2, dif_neg hc22]

/-- Witness for the amended C10 with max retries 1 and base delay 5 on an
    always-500 transport. -/
theorem c10_variants_agree_on_nonzero_config_witness :
    OpenAIApiService.callApi ⟨some 1, some 5⟩
        (fun _ _ => CallResult.err ⟨some 500⟩) [] 0 =
      OpenAIResponsesApiService.callApi ⟨some 1, some 5⟩
        (fun _ _ => CallResult.err ⟨some 500⟩) [] 0 ∧
    OpenAIApiService.streamApi ⟨some 1, some 5⟩
        (fun _ _ => StreamFetch.err ⟨some 500⟩) [] 0 =
      OpenAIResponsesApiService.streamApi ⟨some 1, some 5⟩
        (fun _ _ => StreamFetch.err ⟨some 500⟩) [] 0 :=
  c10_variants_agree_on_nonzero_config ⟨some 1, some 5⟩ 1 5 _ _ [] 0
    rfl (by decide) rfl (by decide)
